import Mathlib

/-!
Verification development for the property-search subsystem
(`search_api/search_engine.py` and `search_api/app.py`).

Python strings are modelled as `List Char` (ASCII data); Python string
methods (`lower`, `strip`, `split`, `in`, `startswith`) are modelled by
the corresponding character-list operations.  Python `dict` records are
modelled by the structure `Entry`: absent keys and empty-string values
coincide under the code's `entry.get(field, "")` / truthiness idiom, so
a field is a `List Char` with `[]` standing for missing-or-empty; the
`<field>_original` keys added by `_pre_clean_data` are `Option` fields
(`none` = key absent).  Scores are natural numbers (all Python score
arithmetic is non-negative).  Code that can raise is modelled in
`Option` with `none` standing for an uncaught exception.
-/

namespace SearchApi

/-- Python whitespace characters recognised by `str.strip` / `str.split` /
the regex class `\s` (ASCII range). -/
def pySpace (c : Char) : Bool :=
  c = ' ' || c = '\t' || c = '\n' || c = '\r' || c = '\x0b' || c = '\x0c'

/-- Python `\w` word characters (ASCII range): letters, digits, underscore. -/
def pyWordChar (c : Char) : Bool :=
  c.isAlpha || c.isDigit || c = '_'

/-- Python `str.lower` (ASCII range). -/
def lower (l : List Char) : List Char :=
  l.map Char.toLower

/-- Python `str.strip()` with no arguments: drop leading and trailing
whitespace. -/
def strip (l : List Char) : List Char :=
  ((l.dropWhile pySpace).reverse.dropWhile pySpace).reverse

/-- Python `str.split()` with no arguments: split on whitespace runs,
discarding empty pieces. -/
def splitWs (l : List Char) : List (List Char) :=
  (l.splitOnP pySpace).filter (fun w => ¬ w.isEmpty)

/-- Step of `re.sub(r'[^\w\s]', ' ', text)`: replace every character that is
neither a word character nor whitespace by a single space. -/
def punctToSpace (l : List Char) : List Char :=
  l.map (fun c => if pyWordChar c || pySpace c then c else ' ')

/-- Helper for `re.sub(r'\s+', ' ', text)`: the boolean records whether the
previous character was part of a whitespace run already emitted as `' '`. -/
def collapseWsAux : Bool → List Char → List Char
  | _, [] => []
  | prevSpace, c :: rest =>
    if pySpace c then
      if prevSpace then collapseWsAux true rest
      else ' ' :: collapseWsAux true rest
    else c :: collapseWsAux false rest

/-- Python `re.sub(r'\s+', ' ', text)`: each maximal whitespace run becomes a
single space. -/
def collapseWs (l : List Char) : List Char :=
  collapseWsAux false l

/-- `SearchEngine._clean_text_for_search`: lowercase, replace punctuation by
spaces, collapse whitespace runs, strip. -/
def clean_text_for_search (text : List Char) : List Char :=
  if text.isEmpty then []
  else strip (collapseWs (punctToSpace (lower text)))

/-- One canonical search record, as held in `self.search_data`.
The five searchable text fields plus the fields the engine reads
(`global_parcel_uid`, `clerk_rec`, `bbox`), and the `<field>_original`
keys created by `_pre_clean_data` (`none` = key absent).
`bbox` coordinates are exact rationals standing for the floats. -/
structure Entry where
  global_parcel_uid : List Char := []
  pidn : List Char := []
  owner : List Char := []
  mailing_address : List Char := []
  physical_address : List Char := []
  county : List Char := []
  clerk_rec : List Char := []
  bbox : Option (ℚ × ℚ × ℚ × ℚ) := none
  owner_original : Option (List Char) := none
  pidn_original : Option (List Char) := none
  mailing_address_original : Option (List Char) := none
  physical_address_original : Option (List Char) := none
  county_original : Option (List Char) := none
deriving DecidableEq, Repr

/-- The all-empty record, used as the (never reached) out-of-range default
when the model indexes `self.search_data[idx]`. -/
def defaultEntry : Entry := {}

/-- `SearchEngine._pre_clean_data`, restricted to one record: for each of the
five searchable fields, when the field is present and non-empty, store the
original under `<field>_original` and replace the field by its cleaned form. -/
def preCleanEntry (e : Entry) : Entry :=
  let e := if ¬ e.owner.isEmpty then
      { e with owner_original := some e.owner,
               owner := clean_text_for_search e.owner }
    else e
  let e := if ¬ e.pidn.isEmpty then
      { e with pidn_original := some e.pidn,
               pidn := clean_text_for_search e.pidn }
    else e
  let e := if ¬ e.mailing_address.isEmpty then
      { e with mailing_address_original := some e.mailing_address,
               mailing_address := clean_text_for_search e.mailing_address }
    else e
  let e := if ¬ e.physical_address.isEmpty then
      { e with physical_address_original := some e.physical_address,
               physical_address := clean_text_for_search e.physical_address }
    else e
  let e := if ¬ e.county.isEmpty then
      { e with county_original := some e.county,
               county := clean_text_for_search e.county }
    else e
  e

/-- `SearchEngine._pre_clean_data` over the whole dataset. -/
def pre_clean_data (data : List Entry) : List Entry :=
  data.map preCleanEntry

/-! ## Scoring -/

/-- Spatial hint `{lat, lon}`, exact rationals standing for the floats. -/
structure SpatialParams where
  lat : ℚ
  lon : ℚ
deriving DecidableEq, Repr

/-- `SearchEngine._calculate_spatial_boost`.  The float comparison
`sqrt(dx^2 + dy^2) < t` is modelled exactly as `dx^2 + dy^2 < t^2`
(both sides non-negative). -/
def calculate_spatial_boost (e : Entry) (p : SpatialParams) : Nat :=
  match e.bbox with
  | none => 0
  | some (minLon, minLat, maxLon, maxLat) =>
    let centerLon := (minLon + maxLon) / 2
    let centerLat := (minLat + maxLat) / 2
    let d2 := (centerLon - p.lon) ^ 2 + (centerLat - p.lat) ^ 2
    if d2 < 1 / 10000 then 1000
    else if d2 < 1 / 100 then 500
    else if d2 < 1 / 4 then 100
    else 0

/-- Python's substring test `needle in hay` on strings. -/
def isSubOf (needle : List Char) : List Char → Bool
  | [] => needle.isEmpty
  | c :: rest => needle.isPrefixOf (c :: rest) || isSubOf needle rest

/-- `SearchEngine._score_all_fields`: additive all-fields scoring. -/
def score_all_fields (e : Entry) (ql : List Char) (qws : List (List Char)) :
    Nat :=
  let score := 0
  let score := if ¬ e.owner.isEmpty then
      let ol := lower e.owner
      if isSubOf ql ol then score + 1000
      else if qws.all (fun w => isSubOf w ol) then score + 800
      else if qws.any (fun w => isSubOf w ol) then score + 400
      else score
    else score
  let score := if ¬ e.pidn.isEmpty then
      let pl := lower e.pidn
      if isSubOf ql pl then score + 600
      else if ql.isPrefixOf pl then score + 500
      else score
    else score
  let score := if ¬ e.mailing_address.isEmpty then
      let al := lower e.mailing_address
      if isSubOf ql al then score + 300
      else if qws.any (fun w => isSubOf w al) then score + 150
      else score
    else score
  let score := if ¬ e.physical_address.isEmpty then
      let al := lower e.physical_address
      if isSubOf ql al then score + 300
      else if qws.any (fun w => isSubOf w al) then score + 150
      else score
    else score
  score

/-- The per-field score computed inside the loop of
`SearchEngine._score_by_fields` (the local variable `field_score`). -/
def fieldScoreOf (e : Entry) (ql : List Char) (qws : List (List Char))
    (field : List Char) : Nat :=
  let fl := lower field
  if fl = ("owner").data then
    if !e.owner.isEmpty && qws.any (fun w => isSubOf w (lower e.owner))
    then 500 else 0
  else if fl = ("pidn").data then
    if !e.pidn.isEmpty && isSubOf ql (lower e.pidn) then 400 else 0
  else if fl = ("mailing_address").data then
    if !e.mailing_address.isEmpty &&
        qws.any (fun w => isSubOf w (lower e.mailing_address))
    then 300 else 0
  else if fl = ("physical_address").data then
    if !e.physical_address.isEmpty &&
        qws.any (fun w => isSubOf w (lower e.physical_address))
    then 300 else 0
  else if fl = ("county").data then
    if !e.county.isEmpty && isSubOf ql (lower e.county) then 200 else 0
  else 0

/-- `SearchEngine._score_by_fields`: fold of `score = max(score, field_score)`
over the requested fields. -/
def score_by_fields (e : Entry) (ql : List Char) (qws : List (List Char))
    (ff : List (List Char)) : Nat :=
  ff.foldl (fun score f => max score (fieldScoreOf e ql qws f)) 0

/-- The base match score of one candidate: field-scoped scoring when a
non-empty field filter is given (Python truthiness of `field_filter`),
otherwise all-fields scoring.  Mirrors the shared prefix of the loop bodies
of `_score_and_filter` and `_search_filtered`. -/
def baseScore (e : Entry) (ql : List Char) (qws : List (List Char))
    (ff : Option (List (List Char))) : Nat :=
  match ff with
  | some f => if ¬ f.isEmpty then score_by_fields e ql qws f
              else score_all_fields e ql qws
  | none => score_all_fields e ql qws

/-- The candidate score after the optional spatial boost (still the shared
part of the two loop bodies): the boost is only added when spatial
parameters are given and the base score is positive. -/
def matchSpatialScore (e : Entry) (ql : List Char) (qws : List (List Char))
    (ff : Option (List (List Char))) (sp : Option SpatialParams) : Nat :=
  let base := baseScore e ql qws ff
  match sp with
  | some p => if 0 < base then base + calculate_spatial_boost e p else base
  | none => base

/-! ## Engine state and index construction -/

/-- The engine state: loaded dataset plus the four indexes.  A Python
`defaultdict(list)` is modelled as a total function to `List Nat`; a key is
"present" (for the `in` tests of `_fast_search`) exactly when its bucket is
non-empty, which matches the code because buckets only ever grow by
`append`. -/
structure Engine where
  data : List Entry
  owner_index : List Char → List Nat
  parcel_index : List Char → List Nat
  address_index : List Char → List Nat
  word_index : List Char → List Nat

/-- `index[key].append(idx)` on a `defaultdict(list)`. -/
def addKey (f : List Char → List Nat) (key : List Char) (idx : Nat) :
    List Char → List Nat :=
  fun k => if k = key then f k ++ [idx] else f k

/-- Add `idx` under every word of length `> 2` of `ws` (the word-index loops
of `_build_indexes`). -/
def addWords (f : List Char → List Nat) (ws : List (List Char)) (idx : Nat) :
    List Char → List Nat :=
  ws.foldl (fun g w => if 2 < w.length then addKey g w idx else g) f

/-- The prefix lengths `range(3, len(pidn_clean) + 1)` used for parcel-prefix
indexing. -/
def prefixLengths (n : Nat) : List Nat :=
  List.range' 3 (n + 1 - 3)

/-- The parcel-index updates for one record: the full cleaned pidn, then
every prefix of length `3 .. len` (`_build_indexes`, parcel branch). -/
def addParcelKeys (f : List Char → List Nat) (pidnClean : List Char)
    (idx : Nat) : List Char → List Nat :=
  (prefixLengths pidnClean.length).foldl
    (fun g i => addKey g (pidnClean.take i) idx)
    (addKey f pidnClean idx)

/-- One iteration of the `for idx, entry in enumerate(self.search_data)` loop
of `SearchEngine._build_indexes`. -/
def indexEntry (eng : Engine) (idx : Nat) (e : Entry) : Engine :=
  let ownerClean := clean_text_for_search e.owner
  let pidnClean := clean_text_for_search e.pidn
  let mailingClean := clean_text_for_search e.mailing_address
  let physicalClean := clean_text_for_search e.physical_address
  let eng := if ¬ ownerClean.isEmpty then
      { eng with owner_index := addKey eng.owner_index ownerClean idx,
                 word_index := addWords eng.word_index (splitWs ownerClean) idx }
    else eng
  let eng := if ¬ pidnClean.isEmpty then
      { eng with parcel_index := addParcelKeys eng.parcel_index pidnClean idx }
    else eng
  let eng := if ¬ mailingClean.isEmpty then
      { eng with address_index := addKey eng.address_index mailingClean idx,
                 word_index := addWords eng.word_index (splitWs mailingClean) idx }
    else eng
  let eng := if ¬ physicalClean.isEmpty then
      { eng with address_index := addKey eng.address_index physicalClean idx,
                 word_index := addWords eng.word_index (splitWs physicalClean) idx }
    else eng
  eng

/-- Tail of the `_build_indexes` loop starting at position `i`. -/
def buildIndexesAux : Engine → Nat → List Entry → Engine
  | eng, _, [] => eng
  | eng, i, e :: rest => buildIndexesAux (indexEntry eng i e) (i + 1) rest

/-- `SearchEngine._build_indexes` run on dataset `data` (indexes are cleared
to empty and rebuilt from scratch). -/
def buildEngine (data : List Entry) : Engine :=
  buildIndexesAux
    { data := data
      owner_index := fun _ => []
      parcel_index := fun _ => []
      address_index := fun _ => []
      word_index := fun _ => [] } 0 data

/-- `_load_search_data` followed by `_build_indexes` (the constructor and
`reload_search_data`): `none` models a missing or unreadable snapshot file,
which the code recovers from by using an empty dataset. -/
def loadEngine (snapshot : Option (List Entry)) : Engine :=
  match snapshot with
  | none => buildEngine []
  | some d => buildEngine (pre_clean_data d)

/-! ## Candidate retrieval -/

/-- `candidates.update(lst)` on a Python set, modelled as an
insertion-ordered duplicate-free list. -/
def updSet (s : List Nat) (l : List Nat) : List Nat :=
  l.foldl (fun acc x => if x ∈ acc then acc else acc ++ [x]) s

/-- `SearchEngine._fast_search`: exact index hits, token hits, the 200-wide
early return, then parcel-prefix hits. -/
def fast_search (eng : Engine) (query : List Char) : List Nat :=
  let ql := strip (lower query)
  let qws := splitWs ql
  let c : List Nat := []
  let c := if ¬ (eng.owner_index ql).isEmpty then updSet c (eng.owner_index ql)
    else c
  let c := if ¬ (eng.parcel_index ql).isEmpty then updSet c (eng.parcel_index ql)
    else c
  let c := if ¬ (eng.address_index ql).isEmpty then updSet c (eng.address_index ql)
    else c
  let c := qws.foldl
    (fun acc w =>
      if 2 < w.length && ¬ (eng.word_index w).isEmpty then
        updSet acc (eng.word_index w)
      else acc) c
  if 200 ≤ c.length then c.take 200
  else
    if 3 ≤ ql.length then
      (prefixLengths ql.length).foldl
        (fun acc i =>
          let pq := ql.take i
          if ¬ (eng.parcel_index pq).isEmpty then updSet acc (eng.parcel_index pq)
          else acc) c
    else c

/-! ## Ranking -/

/-- Insert a scored pair into a descending-sorted list, after every element
of strictly higher score and before every element of equal or lower score. -/
def insertScored {α : Type} (p : α × Nat) : List (α × Nat) → List (α × Nat)
  | [] => [p]
  | q :: rest => if p.2 < q.2 then q :: insertScored p rest else p :: q :: rest

/-- The stable descending sort
`scored_results.sort(key=lambda x: x["score"], reverse=True)`.
A stable sort is uniquely determined by the key order, so this insertion
sort produces exactly the list Python's stable sort produces. -/
def sortScoredDesc {α : Type} : List (α × Nat) → List (α × Nat)
  | [] => []
  | p :: rest => insertScored p (sortScoredDesc rest)

/-! ## The two search paths -/

/-- The scored-candidate list built by the loop of
`SearchEngine._score_and_filter`: a candidate with positive score is kept,
with the flat completeness bonuses (+50 non-empty `physical_address`,
+25 non-empty `clerk_rec`) added on top. -/
def indexedScored (data : List Entry) (ql : List Char) (qws : List (List Char))
    (cands : List Nat) (ff : Option (List (List Char)))
    (sp : Option SpatialParams) : List (Entry × Nat) :=
  cands.filterMap (fun idx =>
    let e := data.getD idx defaultEntry
    let s := matchSpatialScore e ql qws ff sp
    if 0 < s then
      some (e, s + (if ¬ e.physical_address.isEmpty then 50 else 0)
              + (if ¬ e.clerk_rec.isEmpty then 25 else 0))
    else none)

/-- `SearchEngine._score_and_filter`. -/
def score_and_filter (data : List Entry) (query : List Char)
    (cands : List Nat) (ff : Option (List (List Char)))
    (sp : Option SpatialParams) : List Entry :=
  if cands.isEmpty then []
  else
    let ql := strip (lower query)
    let qws := splitWs ql
    ((sortScoredDesc (indexedScored data ql qws cands ff sp)).take 200).map
      Prod.fst

/-- The scored list built by the loop of `SearchEngine._search_filtered`:
a record with positive score is kept with that score — no completeness
bonuses are added on this path. -/
def filteredScored (ql : List Char) (qws : List (List Char))
    (fd : List Entry) (ff : Option (List (List Char)))
    (sp : Option SpatialParams) : List (Entry × Nat) :=
  fd.filterMap (fun e =>
    let s := matchSpatialScore e ql qws ff sp
    if 0 < s then some (e, s) else none)

/-- `SearchEngine._search_filtered`. -/
def search_filtered (query : List Char) (fd : List Entry)
    (ff : Option (List (List Char))) (sp : Option SpatialParams) :
    List Entry :=
  let ql := strip (lower query)
  let qws := splitWs ql
  ((sortScoredDesc (filteredScored ql qws fd ff sp)).take 200).map Prod.fst

/-! ## County filtering -/

/-- The decision taken for one record by the county-filter loop of
`SearchEngine.search`: `some true` = record kept, `some false` = record
skipped, `none` = the expression `uid.split("_")[2]` raises `IndexError`
(the uid contains an underscore but splits into fewer than three parts). -/
def entryCountyKeep (cfl : List (List Char)) (e : Entry) : Option Bool :=
  let uid := e.global_parcel_uid
  if !uid.isEmpty && uid.contains '_' then
    let parts := uid.splitOn '_'
    if 3 ≤ parts.length then
      let code := parts.getD 0 [] ++ '_' ::
        (parts.getD 1 [] ++ '_' :: parts.getD 2 [])
      some (decide (code ∈ cfl))
    else none
  else some false

/-- The county code the filter compares against, when extraction succeeds:
the first three `'_'`-separated parts of `global_parcel_uid` rejoined. -/
def uidCountyCode (uid : List Char) : Option (List Char) :=
  let parts := uid.splitOn '_'
  if 3 ≤ parts.length then
    some (parts.getD 0 [] ++ '_' :: (parts.getD 1 [] ++ '_' :: parts.getD 2 []))
  else none

/-- The county-filter loop of `SearchEngine.search`: build `filtered_data`;
`none` models the loop raising `IndexError` on a malformed uid, which aborts
the whole query. -/
def filterByCounty (data : List Entry) (cfl : List (List Char)) :
    Option (List Entry) :=
  match data with
  | [] => some []
  | e :: rest =>
    match entryCountyKeep cfl e with
    | none => none
    | some true => (filterByCounty rest cfl).map (fun r => e :: r)
    | some false => filterByCounty rest cfl

/-! ## The public search operation -/

/-- `SearchEngine.search`.  `none` models an uncaught exception; every normal
return is `some`. -/
def search (eng : Engine) (query : List Char)
    (cf : Option (List (List Char))) (ff : Option (List (List Char)))
    (sp : Option SpatialParams) : Option (List Entry) :=
  if eng.data.isEmpty then some []
  else if query.isEmpty || (strip query).isEmpty then some []
  else
    let indexedPath : Option (List Entry) :=
      let cands := fast_search eng query
      if cands.isEmpty then some []
      else some (score_and_filter eng.data query cands ff sp)
    match cf with
    | some cfl =>
      if ¬ cfl.isEmpty then
        match filterByCounty eng.data cfl with
        | none => none
        | some fd =>
          if fd.isEmpty then some []
          else some (search_filtered query fd ff sp)
      else indexedPath
    | none => indexedPath

/-- Whether a `search` call takes the county-filtered path
(Python truthiness of `county_filter`). -/
def countyActive (cf : Option (List (List Char))) : Bool :=
  match cf with
  | some cfl => ¬ cfl.isEmpty
  | none => false

/-- The score the engine associates with a returned record: the pair value
stored by `_search_filtered` on the county path, and the bonus-augmented
value stored by `_score_and_filter` on the indexed path. -/
def assignedScore (county : Bool) (query : List Char)
    (ff : Option (List (List Char))) (sp : Option SpatialParams)
    (e : Entry) : Nat :=
  let ql := strip (lower query)
  let qws := splitWs ql
  let s := matchSpatialScore e ql qws ff sp
  if county then s
  else if 0 < s then
    s + (if ¬ e.physical_address.isEmpty then 50 else 0)
      + (if ¬ e.clerk_rec.isEmpty then 25 else 0)
  else 0

/-! ## HTTP boundary (`app.py`, `search_properties`) -/

/-- User-visible HTTP failures of the `/search` route: 400 for an empty
query, 500 when the engine raises. -/
inductive HttpError where
  | badRequest
  | serverError
deriving DecidableEq, Repr

/-- Decidable equality of HTTP results, used to evaluate the route handler
on concrete inputs. -/
instance exceptDecEq {eps a : Type} [DecidableEq eps] [DecidableEq a] :
    DecidableEq (Except eps a) := fun x y =>
  match x, y with
  | .ok u, .ok v => decidable_of_iff (u = v) (by simp)
  | .error u, .error v => decidable_of_iff (u = v) (by simp)
  | .ok _, .error _ => isFalse (by simp)
  | .error _, .ok _ => isFalse (by simp)

/-- The county-filter parsing of `search_properties`: when the `counties`
query parameter is given and non-empty, split on commas, strip each piece,
and drop empty pieces.  No translation from county labels to county codes
takes place. -/
def parseCounties (counties : Option (List Char)) :
    Option (List (List Char)) :=
  match counties with
  | none => none
  | some cs =>
    if cs.isEmpty then none
    else some (((cs.splitOn ',').map strip).filter (fun c => ¬ c.isEmpty))

/-- The client-side truncation `if limit and limit > 0: results[:limit]`. -/
def applyLimit (lim : Option Int) (rs : List Entry) : List Entry :=
  match lim with
  | some n => if 0 < n then rs.take n.toNat else rs
  | none => rs

/-- The `/search` route handler `search_properties`: reject empty queries
with 400, run the engine search with the parsed county filter (no field
filter, no spatial parameters), apply the limit; any engine exception is
caught and surfaced as 500. -/
def search_properties (eng : Engine) (q : List Char) (lim : Option Int)
    (counties : Option (List Char)) : Except HttpError (List Entry) :=
  if q.isEmpty || (strip q).isEmpty then .error .badRequest
  else
    match search eng q (parseCounties counties) none none with
    | none => .error .serverError
    | some rs => .ok (applyLimit lim rs)

/-! ## Scoped scoring as the specification words it -/

/-- The value of one of the five searchable fields, by field name. -/
def fieldValue (e : Entry) (field : List Char) : List Char :=
  if field = ("owner").data then e.owner
  else if field = ("pidn").data then e.pidn
  else if field = ("mailing_address").data then e.mailing_address
  else if field = ("physical_address").data then e.physical_address
  else if field = ("county").data then e.county
  else []

/-- The per-field weights the specification lists for scoped mode. -/
def specFieldWeight (field : List Char) : Nat :=
  if field = ("owner").data then 500
  else if field = ("pidn").data then 400
  else if field = ("mailing_address").data then 300
  else if field = ("physical_address").data then 300
  else if field = ("county").data then 200
  else 0

/-- Scoped scoring as the specification describes it, for comparison with
`score_by_fields` translated from the source: "compute a per-field score
using the same substring/all-words/any-word tiers (weights: owner 500,
pidn 400, addresses 300, county 200) and take the maximum across the
specified fields".  A field matches when the normalized query is a
substring of it, or all query words occur in it, or any query word occurs
in it (the tiers of all-fields mode); a matching non-empty field
contributes its listed weight. -/
def score_by_fields_spec (e : Entry) (ql : List Char)
    (qws : List (List Char)) (ff : List (List Char)) : Nat :=
  (ff.map (fun f =>
    let v := fieldValue e f
    if !v.isEmpty &&
        (isSubOf ql (lower v) || qws.all (fun w => isSubOf w (lower v)) ||
          qws.any (fun w => isSubOf w (lower v)))
    then specFieldWeight f else 0)).foldr max 0

/-! ## Concrete records and engines used in witnesses and counterexamples -/

/-- A minimal one-record dataset. -/
def exSmith : Entry := { owner := ("smith").data }

/-- Engine over the one-record dataset. -/
def exEngineSmith : Engine := buildEngine [exSmith]

/-- A Teton-county record whose owner matches the query `"smith"`. -/
def exTeton : Entry :=
  { global_parcel_uid := ("teton_county_wy_000001").data
    owner := ("smith ranch").data
    county := ("Teton County").data }

/-- Engine loaded (with pre-cleaning) from the one-record Teton snapshot. -/
def exEngineTeton : Engine := loadEngine (some [exTeton])

/-- Record with no completeness-bonus fields (first in its dataset). -/
def exSmithB : Entry :=
  { owner := ("smith b").data
    global_parcel_uid := ("teton_county_wy_000001").data }

/-- Record with non-empty `physical_address` and `clerk_rec` (second in its
dataset), with the same base match score on the query `"smith"` as
`exSmithB`. -/
def exSmithA : Entry :=
  { owner := ("smith a").data
    physical_address := ("9 zz").data
    clerk_rec := ("r").data
    global_parcel_uid := ("teton_county_wy_000002").data }

/-- Engine loaded from the two-record snapshot `[exSmithB, exSmithA]`. -/
def exEngineAB : Engine := loadEngine (some [exSmithB, exSmithA])

/-- A record whose `pidn` contains both words of the query `"abc xyz"` but
not the full query as one substring. -/
def exPidnRec : Entry := { pidn := ("abc123xyz").data }

/-- A record whose `pidn` starts with `"R0008450"` (upper case). -/
def exPidnHit : Entry := { pidn := ("R0008450738").data }

/-- A record whose owner and mailing address contain `"r0008450"` but whose
`pidn` is empty. -/
def exOwnerTrap : Entry :=
  { owner := ("r0008450 holdings").data
    mailing_address := ("r0008450 lane").data }

/-- Engine over the pidn-search dataset. -/
def exEnginePidn : Engine := buildEngine [exPidnHit, exOwnerTrap]

/-- A well-formed record kept by the county filter `["teton_county_wy"]`. -/
def exGood : Entry :=
  { owner := ("ok guy").data
    global_parcel_uid := ("teton_county_wy_1").data }

/-- A record whose `global_parcel_uid` contains an underscore but splits
into only two parts: `uid.split("_")[2]` raises `IndexError` on it. -/
def exBadUid : Entry :=
  { owner := ("x man").data
    global_parcel_uid := ("a_b").data }

/-- Engine whose dataset contains a well-formed record followed by the
malformed-uid record. -/
def exEngineBad : Engine := buildEngine [exGood, exBadUid]

/-- A record whose `owner` field is the empty string. -/
def exEmptyOwner : Entry := { pidn := ("p1").data }

/-- A record with a punctuated owner value. -/
def exCommaOwner : Entry := { owner := ("A,B").data }

/-! ## Ranking lemmas -/

theorem mem_insertScored {α : Type} (p q : α × Nat) (l : List (α × Nat)) :
    q ∈ insertScored p l ↔ q = p ∨ q ∈ l := by
  induction l with
  | nil => simp [insertScored]
  | cons x xs ih =>
    simp only [insertScored]
    split
    · simp only [List.mem_cons, ih]
      tauto
    · simp only [List.mem_cons]

theorem pairwise_insertScored {α : Type} (p : α × Nat) (l : List (α × Nat))
    (h : l.Pairwise (fun a b => b.2 ≤ a.2)) :
    (insertScored p l).Pairwise (fun a b => b.2 ≤ a.2) := by
  induction l with
  | nil => simp [insertScored]
  | cons x xs ih =>
    rw [List.pairwise_cons] at h
    obtain ⟨hx, hxs⟩ := h
    simp only [insertScored]
    split
    · rename_i hlt
      refine List.pairwise_cons.mpr ⟨?_, ih hxs⟩
      intro q hq
      rcases (mem_insertScored p q xs).mp hq with rfl | hq
      · exact Nat.le_of_lt hlt
      · exact hx q hq
    · rename_i hnlt
      refine List.pairwise_cons.mpr ⟨?_, List.pairwise_cons.mpr ⟨hx, hxs⟩⟩
      intro q hq
      rcases List.mem_cons.mp hq with rfl | hq
      · exact Nat.le_of_not_lt hnlt
      · exact Nat.le_trans (hx q hq) (Nat.le_of_not_lt hnlt)

theorem pairwise_sortScoredDesc {α : Type} (l : List (α × Nat)) :
    (sortScoredDesc l).Pairwise (fun a b => b.2 ≤ a.2) := by
  induction l with
  | nil => simp [sortScoredDesc]
  | cons p rest ih => exact pairwise_insertScored p _ ih

theorem mem_sortScoredDesc {α : Type} (l : List (α × Nat)) (q : α × Nat) :
    q ∈ sortScoredDesc l ↔ q ∈ l := by
  induction l with
  | nil => simp [sortScoredDesc]
  | cons p rest ih =>
    simp [sortScoredDesc, mem_insertScored, ih]

/-- The ranked result `sorted.take(200).map(fst)` has at most 200 entries. -/
theorem ranked_length_le {α : Type} (l : List (α × Nat)) :
    (((sortScoredDesc l).take 200).map Prod.fst).length ≤ 200 := by
  rw [List.length_map, List.length_take]
  exact Nat.min_le_left _ _

/-- When every stored score agrees with the score function `f`, the ranked
result is sorted by non-increasing `f`. -/
theorem ranked_pairwise {α : Type} (f : α → Nat) (l : List (α × Nat))
    (hinv : ∀ p ∈ l, p.2 = f p.1) :
    ((((sortScoredDesc l).take 200).map Prod.fst).map f).Pairwise
      (fun a b => b ≤ a) := by
  have hs := pairwise_sortScoredDesc l
  have ht : ((sortScoredDesc l).take 200).Pairwise (fun a b => b.2 ≤ a.2) :=
    List.Pairwise.sublist (List.take_sublist 200 _) hs
  rw [List.pairwise_map, List.pairwise_map]
  refine ht.imp_of_mem ?_
  intro a b ha hb hba
  have hma : a ∈ l := (mem_sortScoredDesc l a).mp (List.take_subset _ _ ha)
  have hmb : b ∈ l := (mem_sortScoredDesc l b).mp (List.take_subset _ _ hb)
  rw [← hinv a hma, ← hinv b hmb]
  exact hba

/-- Every entry of the ranked result comes from a pair of the scored list. -/
theorem mem_ranked {α : Type} (l : List (α × Nat)) (e : α)
    (h : e ∈ ((sortScoredDesc l).take 200).map Prod.fst) :
    ∃ s, (e, s) ∈ l := by
  obtain ⟨p, hp, rfl⟩ := List.mem_map.mp h
  exact ⟨p.2, (mem_sortScoredDesc l p).mp (List.take_subset _ _ hp)⟩

/-! ## Membership lemmas for the two scored lists -/

theorem getD_mem_or {α : Type} (l : List α) (n : Nat) (d : α) :
    l.getD n d ∈ l ∨ l.getD n d = d := by
  by_cases h : n < l.length
  · left
    rw [List.getD_eq_getElem l d h]
    exact List.getElem_mem h
  · right
    rw [List.getD_eq_default]
    exact Nat.le_of_not_lt h

theorem mem_indexedScored {data : List Entry} {ql : List Char}
    {qws : List (List Char)} {cands : List Nat}
    {ff : Option (List (List Char))} {sp : Option SpatialParams}
    {p : Entry × Nat} (h : p ∈ indexedScored data ql qws cands ff sp) :
    (p.1 ∈ data ∨ p.1 = defaultEntry) ∧
    0 < matchSpatialScore p.1 ql qws ff sp ∧
    p.2 = matchSpatialScore p.1 ql qws ff sp
        + (if ¬ p.1.physical_address.isEmpty then 50 else 0)
        + (if ¬ p.1.clerk_rec.isEmpty then 25 else 0) := by
  simp only [indexedScored, List.mem_filterMap] at h
  obtain ⟨idx, _hidx, heq⟩ := h
  by_cases hs : 0 < matchSpatialScore (data.getD idx defaultEntry) ql qws ff sp
  · rw [if_pos hs] at heq
    cases heq
    exact ⟨getD_mem_or data idx defaultEntry, hs, rfl⟩
  · rw [if_neg hs] at heq
    cases heq

theorem mem_filteredScored {ql : List Char} {qws : List (List Char)}
    {fd : List Entry} {ff : Option (List (List Char))}
    {sp : Option SpatialParams} {p : Entry × Nat}
    (h : p ∈ filteredScored ql qws fd ff sp) :
    p.1 ∈ fd ∧ 0 < matchSpatialScore p.1 ql qws ff sp ∧
    p.2 = matchSpatialScore p.1 ql qws ff sp := by
  simp only [filteredScored, List.mem_filterMap] at h
  obtain ⟨e, he, heq⟩ := h
  by_cases hs : 0 < matchSpatialScore e ql qws ff sp
  · rw [if_pos hs] at heq
    cases heq
    exact ⟨he, hs, rfl⟩
  · rw [if_neg hs] at heq
    cases heq

/-! ## County-filter lemmas -/

theorem filterByCounty_mem {data : List Entry} {cfl : List (List Char)}
    {fd : List Entry} (h : filterByCounty data cfl = some fd) :
    ∀ e ∈ fd, e ∈ data ∧ entryCountyKeep cfl e = some true := by
  induction data generalizing fd with
  | nil =>
    simp only [filterByCounty, Option.some.injEq] at h
    subst h
    intro e he
    cases he
  | cons x rest ih =>
    simp only [filterByCounty] at h
    cases hk : entryCountyKeep cfl x with
    | none => rw [hk] at h; cases h
    | some b =>
      rw [hk] at h
      cases b with
      | true =>
        cases hrest : filterByCounty rest cfl with
        | none => rw [hrest] at h; cases h
        | some fd' =>
          rw [hrest] at h
          have h2 : x :: fd' = fd := by simpa using h
          subst h2
          intro e he
          rcases List.mem_cons.mp he with rfl | he
          · exact ⟨List.mem_cons_self .., hk⟩
          · obtain ⟨h1, h2⟩ := ih hrest e he
            exact ⟨List.mem_cons_of_mem _ h1, h2⟩
      | false =>
        intro e he
        obtain ⟨h1, h2⟩ := ih h e he
        exact ⟨List.mem_cons_of_mem _ h1, h2⟩

/-- When a record is kept by the county filter, its county code extraction
succeeds and the code is one of the filter values. -/
theorem entryCountyKeep_true {cfl : List (List Char)} {e : Entry}
    (h : entryCountyKeep cfl e = some true) :
    ∃ code, uidCountyCode e.global_parcel_uid = some code ∧ code ∈ cfl := by
  simp only [entryCountyKeep] at h
  by_cases hg : !e.global_parcel_uid.isEmpty && e.global_parcel_uid.contains '_'
  · rw [if_pos hg] at h
    by_cases hl : 3 ≤ (e.global_parcel_uid.splitOn '_').length
    · rw [if_pos hl] at h
      refine ⟨(e.global_parcel_uid.splitOn '_').getD 0 [] ++ '_' ::
        ((e.global_parcel_uid.splitOn '_').getD 1 [] ++ '_' ::
          (e.global_parcel_uid.splitOn '_').getD 2 []), ?_, ?_⟩
      · simp only [uidCountyCode]
        rw [if_pos hl]
      · simpa using h
    · rw [if_neg hl] at h
      cases h
  · rw [if_neg hg] at h
    cases h

/-! ## A case analysis of `search` -/

/-- Every successful `search` call returns either an empty list, the ranked
county-filtered list, or the ranked indexed list. -/
theorem search_cases {eng : Engine} {query : List Char}
    {cf ff : Option (List (List Char))} {sp : Option SpatialParams}
    {rs : List Entry} (h : search eng query cf ff sp = some rs) :
    rs = [] ∨
    (countyActive cf = true ∧ ∃ cfl fd, cf = some cfl ∧
      filterByCounty eng.data cfl = some fd ∧
      rs = search_filtered query fd ff sp) ∨
    (countyActive cf = false ∧
      rs = score_and_filter eng.data query (fast_search eng query) ff sp) := by
  by_cases hd : eng.data.isEmpty
  · left
    simp only [search, if_pos hd, Option.some.injEq] at h
    exact h.symm
  · by_cases hq : query.isEmpty || (strip query).isEmpty
    · left
      simp only [search, if_neg hd, if_pos hq, Option.some.injEq] at h
      exact h.symm
    · simp only [search, if_neg hd, if_neg hq] at h
      cases hcf : cf with
      | none =>
        subst hcf
        simp only at h
        by_cases hc : (fast_search eng query).isEmpty
        · left
          rw [if_pos hc] at h
          simpa using h.symm
        · right; right
          rw [if_neg hc] at h
          exact ⟨rfl, by simpa using h.symm⟩
      | some cfl =>
        subst hcf
        simp only at h
        by_cases hcfl : cfl.isEmpty
        · rw [if_neg (by simp [hcfl])] at h
          by_cases hc : (fast_search eng query).isEmpty
          · left
            rw [if_pos hc] at h
            simpa using h.symm
          · right; right
            rw [if_neg hc] at h
            exact ⟨by simp [countyActive, hcfl], by simpa using h.symm⟩
        · rw [if_pos (by simpa using hcfl)] at h
          cases hfc : filterByCounty eng.data cfl with
          | none => rw [hfc] at h; cases h
          | some fd =>
            rw [hfc] at h
            replace h : (if fd.isEmpty then some ([] : List Entry)
                else some (search_filtered query fd ff sp)) = some rs := h
            by_cases hfd : fd.isEmpty
            · left
              rw [if_pos hfd] at h
              simpa using h.symm
            · right; left
              rw [if_neg hfd] at h
              exact ⟨by simp [countyActive, hcfl], cfl, fd, rfl, hfc,
                by simpa using h.symm⟩

/-! ## Score bookkeeping lemmas -/

theorem assignedScore_true (query : List Char) (ff : Option (List (List Char)))
    (sp : Option SpatialParams) (e : Entry) :
    assignedScore true query ff sp e =
      matchSpatialScore e (strip (lower query)) (splitWs (strip (lower query)))
        ff sp := rfl

theorem assignedScore_false (query : List Char) (ff : Option (List (List Char)))
    (sp : Option SpatialParams) (e : Entry) :
    assignedScore false query ff sp e =
      (if 0 < matchSpatialScore e (strip (lower query))
            (splitWs (strip (lower query))) ff sp
       then matchSpatialScore e (strip (lower query))
              (splitWs (strip (lower query))) ff sp
            + (if ¬ e.physical_address.isEmpty then 50 else 0)
            + (if ¬ e.clerk_rec.isEmpty then 25 else 0)
       else 0) := rfl

/-- A positive boosted score forces a positive base score (the boost is only
added when the base score is already positive). -/
theorem baseScore_pos_of_matchSpatialScore_pos {e : Entry} {ql : List Char}
    {qws : List (List Char)} {ff : Option (List (List Char))}
    {sp : Option SpatialParams} (h : 0 < matchSpatialScore e ql qws ff sp) :
    0 < baseScore e ql qws ff := by
  cases sp with
  | none => exact h
  | some p =>
    by_cases hb : 0 < baseScore e ql qws ff
    · exact hb
    · exact absurd (by simpa [matchSpatialScore, if_neg hb] using h) hb

/-! ## The two ranked paths: length and sortedness -/

theorem search_filtered_length (query : List Char) (fd : List Entry)
    (ff : Option (List (List Char))) (sp : Option SpatialParams) :
    (search_filtered query fd ff sp).length ≤ 200 :=
  ranked_length_le _

theorem search_filtered_pairwise (query : List Char) (fd : List Entry)
    (ff : Option (List (List Char))) (sp : Option SpatialParams) :
    ((search_filtered query fd ff sp).map
      (assignedScore true query ff sp)).Pairwise (fun a b => b ≤ a) :=
  ranked_pairwise (assignedScore true query ff sp)
    (filteredScored (strip (lower query)) (splitWs (strip (lower query)))
      fd ff sp)
    (fun p hp => by
      rw [assignedScore_true]
      exact (mem_filteredScored hp).2.2)

theorem score_and_filter_length (data : List Entry) (query : List Char)
    (cands : List Nat) (ff : Option (List (List Char)))
    (sp : Option SpatialParams) :
    (score_and_filter data query cands ff sp).length ≤ 200 := by
  unfold score_and_filter
  split
  · simp
  · exact ranked_length_le _

theorem score_and_filter_pairwise (data : List Entry) (query : List Char)
    (cands : List Nat) (ff : Option (List (List Char)))
    (sp : Option SpatialParams) :
    ((score_and_filter data query cands ff sp).map
      (assignedScore false query ff sp)).Pairwise (fun a b => b ≤ a) := by
  unfold score_and_filter
  split
  · simp
  · refine ranked_pairwise _ _ (fun p hp => ?_)
    obtain ⟨-, hpos, heq⟩ := mem_indexedScored hp
    rw [assignedScore_false, if_pos hpos]
    exact heq

/-! ## Claim C1 -/

/-- C1: for every engine state and query, a `search` call that returns
(rather than raising) yields at most 200 results, ordered by non-increasing
score — no result's score is below the score of any later result — where
the score of a result is the one the engine assigned on the path taken
(county-filtered or indexed). -/
theorem search_at_most_200_and_sorted (eng : Engine) (query : List Char)
    (cf ff : Option (List (List Char))) (sp : Option SpatialParams)
    (rs : List Entry) (h : search eng query cf ff sp = some rs) :
    rs.length ≤ 200 ∧
    (rs.map (assignedScore (countyActive cf) query ff sp)).Pairwise
      (fun a b => b ≤ a) := by
  rcases search_cases h with rfl | ⟨hca, cfl, fd, hcf, hfc, rfl⟩ | ⟨hca, rfl⟩
  · simp
  · rw [hca]
    exact ⟨search_filtered_length query fd ff sp,
      search_filtered_pairwise query fd ff sp⟩
  · rw [hca]
    exact ⟨score_and_filter_length eng.data query (fast_search eng query) ff sp,
      score_and_filter_pairwise eng.data query (fast_search eng query) ff sp⟩

/-- Witness for C1 at a concrete engine and query. -/
theorem search_at_most_200_and_sorted_witness :
    ([exSmith].length ≤ 200 ∧
      (([exSmith]).map (assignedScore (countyActive none) (("smith").data)
        none none)).Pairwise (fun a b => b ≤ a)) :=
  search_at_most_200_and_sorted exEngineSmith (("smith").data) none none none
    [exSmith] (by decide)

/-! ## Claim C6 -/

/-- C6: an empty or whitespace-only query returns an empty result list,
with no exception, on every engine state and with every combination of
filters. -/
theorem search_blank_query_empty (eng : Engine) (query : List Char)
    (cf ff : Option (List (List Char))) (sp : Option SpatialParams)
    (h : (strip query).isEmpty = true) :
    search eng query cf ff sp = some [] := by
  by_cases hd : eng.data.isEmpty
  · simp [search, hd]
  · simp [search, hd, h]

/-- Witness for C6 on a whitespace query over a non-empty dataset. -/
theorem search_blank_query_empty_witness :
    (strip (("  ").data)).isEmpty = true ∧
      search exEngineSmith (("  ").data) none none none = some [] :=
  ⟨by decide, search_blank_query_empty exEngineSmith (("  ").data) none none
    none (by decide)⟩

/-! ## Claim C7 -/

/-- C7: when the snapshot file is missing at load time, the engine starts
with an empty dataset and empty indexes, and every subsequent search
returns an empty result list rather than raising. -/
theorem load_missing_snapshot_empty :
    (loadEngine none).data = [] ∧
    (∀ k, (loadEngine none).owner_index k = [] ∧
      (loadEngine none).parcel_index k = [] ∧
      (loadEngine none).address_index k = [] ∧
      (loadEngine none).word_index k = []) ∧
    (∀ (query : List Char) (cf ff : Option (List (List Char)))
      (sp : Option SpatialParams),
      search (loadEngine none) query cf ff sp = some []) :=
  ⟨rfl, fun _ => ⟨rfl, rfl, rfl, rfl⟩, fun _ _ _ _ => rfl⟩

/-! ## Claim C8 -/

/-- C8: the county-code extraction is not total — one record whose
`global_parcel_uid` is `"a_b"` (contains an underscore, but fewer than
three underscore-separated parts) makes the whole county-filtered query
raise `IndexError` (modelled as `none`), even though a well-formed matching
record is present in the dataset. -/
theorem search_county_malformed_uid_raises :
    search exEngineBad (("ok").data) (some [("teton_county_wy").data])
      none none = none := by decide

/-! ## Claim C3 -/

/-- C3 counterexample: the completeness bonuses are not part of the scoring
rule on the county-filtered path.  On the same two-record dataset and the
same query `"smith"`, both records have base match score 1000, and
`exSmithA` has non-empty `physical_address` and `clerk_rec`.  Without a
county filter the +50/+25 bonuses rank `exSmithA` first; with a county
filter no bonus is applied, the scores tie, and the stable sort leaves
`exSmithB` first. -/
theorem county_path_drops_bonuses :
    search exEngineAB (("smith").data) (some [("teton_county_wy").data])
        none none =
      some [preCleanEntry exSmithB, preCleanEntry exSmithA] ∧
    search exEngineAB (("smith").data) none none none =
      some [preCleanEntry exSmithA, preCleanEntry exSmithB] := by
  constructor
  · decide
  · decide

/-- C3 amended: positive-scoring candidates receive the +50 (non-empty
`physical_address`) and +25 (non-empty `clerk_rec`) bonuses on the indexed
path only; on the county-filtered path the stored score is exactly the
match-plus-spatial score, with no bonuses. -/
theorem bonuses_indexed_path_only :
    (∀ (data : List Entry) (ql : List Char) (qws : List (List Char))
      (cands : List Nat) (ff : Option (List (List Char)))
      (sp : Option SpatialParams) (p : Entry × Nat),
      p ∈ indexedScored data ql qws cands ff sp →
      p.2 = matchSpatialScore p.1 ql qws ff sp
          + (if ¬ p.1.physical_address.isEmpty then 50 else 0)
          + (if ¬ p.1.clerk_rec.isEmpty then 25 else 0)) ∧
    (∀ (ql : List Char) (qws : List (List Char)) (fd : List Entry)
      (ff : Option (List (List Char))) (sp : Option SpatialParams)
      (p : Entry × Nat),
      p ∈ filteredScored ql qws fd ff sp →
      p.2 = matchSpatialScore p.1 ql qws ff sp) :=
  ⟨fun _ _ _ _ _ _ _ hp => (mem_indexedScored hp).2.2,
   fun _ _ _ _ _ _ hp => (mem_filteredScored hp).2.2⟩

/-- Witness for the amended C3 at a concrete scored candidate. -/
theorem bonuses_indexed_path_only_witness :
    (1075 : Nat) = matchSpatialScore exSmithA (("smith").data)
        [("smith").data] none none
      + (if ¬ exSmithA.physical_address.isEmpty then 50 else 0)
      + (if ¬ exSmithA.clerk_rec.isEmpty then 25 else 0) :=
  bonuses_indexed_path_only.1 [exSmithB, exSmithA] (("smith").data)
    [("smith").data] [1] none none (exSmithA, 1075) (by decide)

/-! ## Claim C4 -/

/-- C4 counterexample: scoped scoring does not use the
substring/all-words/any-word tiers.  For the query `"abc xyz"` scoped to
`pidn`, the record with `pidn = "abc123xyz"` contains every query word (so
the spec's tiers match it at weight 400) but the code requires the full
query as one substring of `pidn` and scores it 0. -/
theorem scoped_scoring_has_no_tiers :
    score_by_fields exPidnRec (("abc xyz").data)
        [("abc").data, ("xyz").data] [("pidn").data] = 0 ∧
    score_by_fields_spec exPidnRec (("abc xyz").data)
        [("abc").data, ("xyz").data] [("pidn").data] = 400 := by
  constructor
  · decide
  · decide

/-- A left fold of `max` equals `max` of the seed with the right fold. -/
theorem foldl_max_eq_max_foldr (l : List Nat) (a : Nat) :
    l.foldl max a = max a (l.foldr max 0) := by
  induction l generalizing a with
  | nil => simp
  | cons x xs ih =>
    simp only [List.foldl_cons, List.foldr_cons, ih (max a x)]
    rw [Nat.max_assoc]

/-- C4 amended: the scoped-mode score is the maximum over the specified
fields of a flat per-field score — owner, mailing and physical address
match when any query word occurs in them (500/300/300), pidn and county
match when the whole normalized query is a substring (400/200) — and the
per-field scores are never summed. -/
theorem score_by_fields_is_max_of_field_scores (e : Entry) (ql : List Char)
    (qws : List (List Char)) (ff : List (List Char)) :
    score_by_fields e ql qws ff =
      (ff.map (fieldScoreOf e ql qws)).foldr max 0 := by
  have h : score_by_fields e ql qws ff =
      (ff.map (fieldScoreOf e ql qws)).foldl max 0 := by
    rw [List.foldl_map]
    rfl
  rw [h, foldl_max_eq_max_foldr]
  exact Nat.zero_max _

/-! ## Generic membership facts about `search` results -/

/-- Every returned record has a positive boosted match score on the path
taken. -/
theorem search_mem_pos {eng : Engine} {query : List Char}
    {cf ff : Option (List (List Char))} {sp : Option SpatialParams}
    {rs : List Entry} (h : search eng query cf ff sp = some rs) :
    ∀ e ∈ rs, 0 < matchSpatialScore e (strip (lower query))
      (splitWs (strip (lower query))) ff sp := by
  rcases search_cases h with rfl | ⟨hca, cfl, fd, hcf, hfc, rfl⟩ | ⟨hca, rfl⟩
  · intro e he
    cases he
  · intro e he
    obtain ⟨s, hs⟩ := mem_ranked _ e he
    exact (mem_filteredScored hs).2.1
  · intro e he
    unfold score_and_filter at he
    by_cases hc : (fast_search eng query).isEmpty
    · rw [if_pos hc] at he
      cases he
    · rw [if_neg hc] at he
      obtain ⟨s, hs⟩ := mem_ranked _ e he
      exact (mem_indexedScored hs).2.1

/-- Every returned record is a record of the loaded dataset (or the
out-of-range default, which the index construction never produces). -/
theorem search_mem_data {eng : Engine} {query : List Char}
    {cf ff : Option (List (List Char))} {sp : Option SpatialParams}
    {rs : List Entry} (h : search eng query cf ff sp = some rs) :
    ∀ e ∈ rs, e ∈ eng.data ∨ e = defaultEntry := by
  rcases search_cases h with rfl | ⟨hca, cfl, fd, hcf, hfc, rfl⟩ | ⟨hca, rfl⟩
  · intro e he
    cases he
  · intro e he
    obtain ⟨s, hs⟩ := mem_ranked _ e he
    exact Or.inl ((filterByCounty_mem hfc e (mem_filteredScored hs).1).1)
  · intro e he
    unfold score_and_filter at he
    by_cases hc : (fast_search eng query).isEmpty
    · rw [if_pos hc] at he
      cases he
    · rw [if_neg hc] at he
      obtain ⟨s, hs⟩ := mem_ranked _ e he
      exact (mem_indexedScored hs).1

/-- On an active county filter, every returned record's extracted county
code is one of the filter values. -/
theorem search_county_mem {eng : Engine} {query : List Char}
    {cfl : List (List Char)} {ff : Option (List (List Char))}
    {sp : Option SpatialParams} {rs : List Entry}
    (h : search eng query (some cfl) ff sp = some rs)
    (hne : cfl.isEmpty = false) :
    ∀ e ∈ rs, ∃ code, uidCountyCode e.global_parcel_uid = some code ∧
      code ∈ cfl := by
  rcases search_cases h with rfl | ⟨hca, cfl', fd, hcf, hfc, rfl⟩ | ⟨hca, rfl⟩
  · intro e he
    cases he
  · have hcfl : cfl' = cfl := by
      injection hcf.symm
    subst hcfl
    intro e he
    obtain ⟨s, hs⟩ := mem_ranked _ e he
    exact entryCountyKeep_true
      (filterByCounty_mem hfc e (mem_filteredScored hs).1).2
  · rw [countyActive] at hca
    simp [hne] at hca

/-! ## Claim C5 -/

/-- C5: a field-scoped search with `field_filter = ["pidn"]` and query
`"R0008450"` returns only records whose `pidn` contains `"r0008450"`
case-insensitively, on every engine state, with or without a county filter
or spatial hint. -/
theorem pidn_scoped_search_requires_pidn_substring (eng : Engine)
    (cf : Option (List (List Char))) (sp : Option SpatialParams)
    (rs : List Entry)
    (h : search eng (("R0008450").data) cf (some [("pidn").data]) sp
      = some rs) :
    ∀ e ∈ rs, isSubOf (("r0008450").data) (lower e.pidn) = true := by
  intro e he
  have hpos := search_mem_pos h e he
  have hb := baseScore_pos_of_matchSpatialScore_pos hpos
  have hb2 : 0 < score_by_fields e (strip (lower (("R0008450").data)))
      (splitWs (strip (lower (("R0008450").data)))) [("pidn").data] := by
    simpa [baseScore] using hb
  rw [show strip (lower (("R0008450").data)) = ("r0008450").data from
    by decide] at hb2
  have hb3 : 0 < fieldScoreOf e (("r0008450").data)
      (splitWs (("r0008450").data)) (("pidn").data) := by
    simpa [score_by_fields] using hb2
  by_cases hc : (!e.pidn.isEmpty &&
      isSubOf (("r0008450").data) (lower e.pidn)) = true
  · exact ((Bool.and_eq_true _ _).mp hc).2
  · exfalso
    have hz : fieldScoreOf e (("r0008450").data)
        (splitWs (("r0008450").data)) (("pidn").data) = 0 := by
      simp only [fieldScoreOf]
      rw [if_neg (by decide), if_pos (by decide), if_neg hc]
    rw [hz] at hb3
    exact Nat.lt_irrefl 0 hb3

/-- Witness for C5: the record whose `pidn` starts with `"R0008450"` is
returned (and satisfies the substring property), while the record whose
owner and mailing address contain `"r0008450"` but whose `pidn` is empty is
not returned. -/
theorem pidn_scoped_search_requires_pidn_substring_witness :
    search exEnginePidn (("R0008450").data) none (some [("pidn").data]) none
      = some [exPidnHit] ∧
    isSubOf (("r0008450").data) (lower exPidnHit.pidn) = true :=
  ⟨by decide,
   pidn_scoped_search_requires_pidn_substring exEnginePidn none none
     [exPidnHit] (by decide) exPidnHit (by decide)⟩

/-! ## Claim C2 -/

/-- C2 counterexample: the HTTP layer performs no label-to-code
translation.  The dataset holds one Teton-county record whose owner matches
the query `"smith"`; filtering by the human-readable label
`"Teton County"` returns nothing, while filtering by the county code
`"teton_county_wy"` (the first three underscore-separated parts of the
record's `global_parcel_uid`) returns the record. -/
theorem county_labels_not_translated :
    search_properties exEngineTeton (("smith").data) (some 200)
        (some (("Teton County").data)) = .ok [] ∧
    search_properties exEngineTeton (("smith").data) (some 200)
        (some (("teton_county_wy").data)) = .ok [preCleanEntry exTeton] := by
  constructor
  · decide
  · decide

/-- Records surviving the limit truncation come from the untruncated list. -/
theorem applyLimit_subset (lim : Option Int) (rs : List Entry) :
    ∀ e ∈ applyLimit lim rs, e ∈ rs := by
  intro e he
  cases lim with
  | none => exact he
  | some n =>
    unfold applyLimit at he
    replace he : e ∈ (if 0 < n then rs.take n.toNat else rs) := he
    by_cases hn : 0 < n
    · rw [if_pos hn] at he
      exact List.take_subset _ _ he
    · rw [if_neg hn] at he
      exact he

/-- C2 amended: the comma-separated `counties` parameter is split, stripped
and passed through verbatim — not translated from labels to codes — and
compared against the county code formed from the first three
underscore-separated parts of each record's `global_parcel_uid`; whenever
the parsed filter is non-empty, the result set contains only records whose
code appears verbatim in the list, so records of any other county are
excluded entirely. -/
theorem county_filter_restricts_to_filter_codes (eng : Engine)
    (q : List Char) (lim : Option Int) (counties : Option (List Char))
    (cfl : List (List Char)) (rs : List Entry)
    (hp : parseCounties counties = some cfl) (hne : cfl.isEmpty = false)
    (h : search_properties eng q lim counties = .ok rs) :
    ∀ e ∈ rs, ∃ code, uidCountyCode e.global_parcel_uid = some code ∧
      code ∈ cfl := by
  unfold search_properties at h
  by_cases hq : q.isEmpty || (strip q).isEmpty
  · rw [if_pos hq] at h
    cases h
  · rw [if_neg hq, hp] at h
    cases hs : search eng q (some cfl) none none with
    | none =>
      rw [hs] at h
      cases h
    | some rs0 =>
      rw [hs] at h
      replace h : Except.ok (ε := HttpError) (applyLimit lim rs0)
          = Except.ok rs := h
      injection h with h
      subst h
      intro e he
      exact search_county_mem hs hne e (applyLimit_subset lim rs0 e he)

/-- Witness for the amended C2 at the concrete Teton engine. -/
theorem county_filter_restricts_to_filter_codes_witness :
    ∃ code, uidCountyCode (preCleanEntry exTeton).global_parcel_uid
      = some code ∧ code ∈ [("teton_county_wy").data] :=
  county_filter_restricts_to_filter_codes exEngineTeton (("smith").data)
    (some 200) (some (("teton_county_wy").data)) [("teton_county_wy").data]
    [preCleanEntry exTeton] (by decide) (by decide) (by decide)
    (preCleanEntry exTeton) (by decide)

/-! ## Claim C10 -/

/-- Index construction never changes the dataset component of the engine. -/
theorem indexEntry_data (eng : Engine) (i : Nat) (e : Entry) :
    (indexEntry eng i e).data = eng.data := by
  simp only [indexEntry]
  split
  all_goals split
  all_goals split
  all_goals split
  all_goals rfl

theorem buildIndexesAux_data (l : List Entry) (eng : Engine) (i : Nat) :
    (buildIndexesAux eng i l).data = eng.data := by
  induction l generalizing eng i with
  | nil => rfl
  | cons e rest ih =>
    rw [buildIndexesAux, ih, indexEntry_data]

/-- The dataset held by an engine loaded from a snapshot is the pre-cleaned
snapshot. -/
theorem loadEngine_data (snap : List Entry) :
    (loadEngine (some snap)).data = snap.map preCleanEntry := by
  rw [loadEngine, buildEngine, buildIndexesAux_data]
  rfl

/-- C10 counterexample: a record whose `owner` value is empty gets no
`owner_original` key from pre-cleaning, so the original value is not
preserved under the new key for every loaded record. -/
theorem empty_field_gets_no_original :
    ¬ ((preCleanEntry exEmptyOwner).owner_original
        = some exEmptyOwner.owner) := by decide

/-- C10 amended: pre-cleaning replaces each of the five searchable fields
that holds a non-empty value by its normalized form and preserves the
original under `<field>_original` (fields holding empty values are left
untouched and get no original key), and every record returned by a search
over a loaded snapshot is the pre-cleaned image of a snapshot record — it
carries the normalized field text, not the snapshot text. -/
theorem load_normalizes_searchable_fields :
    (∀ e : Entry,
      (¬ e.owner.isEmpty = true →
        (preCleanEntry e).owner = clean_text_for_search e.owner ∧
        (preCleanEntry e).owner_original = some e.owner) ∧
      (¬ e.pidn.isEmpty = true →
        (preCleanEntry e).pidn = clean_text_for_search e.pidn ∧
        (preCleanEntry e).pidn_original = some e.pidn) ∧
      (¬ e.mailing_address.isEmpty = true →
        (preCleanEntry e).mailing_address
          = clean_text_for_search e.mailing_address ∧
        (preCleanEntry e).mailing_address_original
          = some e.mailing_address) ∧
      (¬ e.physical_address.isEmpty = true →
        (preCleanEntry e).physical_address
          = clean_text_for_search e.physical_address ∧
        (preCleanEntry e).physical_address_original
          = some e.physical_address) ∧
      (¬ e.county.isEmpty = true →
        (preCleanEntry e).county = clean_text_for_search e.county ∧
        (preCleanEntry e).county_original = some e.county)) ∧
    (∀ (snap : List Entry) (query : List Char)
      (cf ff : Option (List (List Char))) (sp : Option SpatialParams)
      (rs : List Entry),
      search (loadEngine (some snap)) query cf ff sp = some rs →
      ∀ e ∈ rs, ∃ e0, (e0 ∈ snap ∨ e0 = defaultEntry) ∧
        e = preCleanEntry e0) := by
  constructor
  · intro e
    by_cases h1 : e.owner.isEmpty <;>
      by_cases h2 : e.pidn.isEmpty <;>
        by_cases h3 : e.mailing_address.isEmpty <;>
          by_cases h4 : e.physical_address.isEmpty <;>
            by_cases h5 : e.county.isEmpty <;>
              simp [preCleanEntry, h1, h2, h3, h4, h5]
  · intro snap query cf ff sp rs h e he
    rcases search_mem_data h e he with hin | hdef
    · rw [loadEngine_data] at hin
      obtain ⟨e0, he0, rfl⟩ := List.mem_map.mp hin
      exact ⟨e0, Or.inl he0, rfl⟩
    · exact ⟨defaultEntry, Or.inr rfl, by rw [hdef]; rfl⟩

/-- Witness for the amended C10: the punctuated owner value is normalized
with its original preserved, and a concrete search result is the
pre-cleaned image of its snapshot record. -/
theorem load_normalizes_searchable_fields_witness :
    ((preCleanEntry exCommaOwner).owner
        = clean_text_for_search exCommaOwner.owner ∧
      (preCleanEntry exCommaOwner).owner_original
        = some exCommaOwner.owner) ∧
    (∃ e0, (e0 ∈ [exTeton] ∨ e0 = defaultEntry) ∧
      preCleanEntry exTeton = preCleanEntry e0) :=
  ⟨(load_normalizes_searchable_fields.1 exCommaOwner).1 (by decide),
   load_normalizes_searchable_fields.2 [exTeton] (("smith").data) none none
     none [preCleanEntry exTeton] (by decide) (preCleanEntry exTeton)
     (by decide)⟩

end SearchApi
